import Mathlib

/-!
Shallow embedding of `DramLevelDBStore` from
`tensorflow/core/framework/embedding/dram_leveldb_storage.h` (DeepRec):
a two-tier embedding storage coordinator with a Hot (DRAM) tier and a
Cold (LevelDB) tier.  The coordinator's methods are translated from the
source; the tier primitives (`DramStorage` / `LevelDBStore` /
`LocklessHashMap`, which are not part of this file's source) are modelled
from the specification of the tier interface.
-/

namespace DramLevelDB

/-- Modelled from the spec: a record handle (`ValuePtr<V>`); the payload
itself is out of scope, so a record is identified by an allocation id and
carries the allocation length it was created with. -/
structure ValuePtr where
  id : Nat
  len : Nat
deriving DecidableEq, Repr

/-- Modelled from the spec: the result-code half of `tensorflow::Status`
that the storage paths use (`Status::OK()` versus the not-found errors). -/
inductive Status where
  | Ok
  | NotFound
deriving DecidableEq, Repr

/-- Result of an operation that may abort the process through
`LOG(FATAL)` / `TF_CHECK_OK`: either a normal return value or a fatal
abort carrying the logged message. -/
inductive Outcome (α : Type) where
  | ok (a : α)
  | fatal (msg : String)
deriving DecidableEq, Repr

/-- A storage tier's contents: an association list from keys to record
handles (modelled from the spec's tier interface; the Hot tier is a
hash map, the Cold tier a sorted KV engine — for the coordinator's logic
only the map semantics matter). -/
abbrev Tier (K : Type) := List (K × ValuePtr)

variable {K : Type} [DecidableEq K]

/-- Modelled from the spec: tier point lookup (`Get` / first binding of
the key). -/
def tierGet : Tier K → K → Option ValuePtr
  | [], _ => none
  | (k0, v) :: rest, k => if k = k0 then some v else tierGet rest k

/-- Modelled from the spec: tier `Remove`; unlinks every binding of the
key, a no-op when the key is absent. -/
def tierRemove : Tier K → K → Tier K
  | [], _ => []
  | (k0, v) :: rest, k =>
    if k0 = k then tierRemove rest k else (k0, v) :: tierRemove rest k

/-- Modelled from the spec: tier `Contains`. -/
def tierContains (t : Tier K) (k : K) : Bool :=
  (tierGet t k).isSome

/-- Modelled from the spec: unconditional tier-local insert (also the Cold
tier's `Commit`, which durably upserts the record for the key). -/
def tierInsert (t : Tier K) (k : K) (v : ValuePtr) : Tier K :=
  (k, v) :: tierRemove t k

/-- Modelled from the spec: the Hot tier's `TryInsert`, the primitive that
enforces INV3 — it fails without side effect when the key already exists,
and otherwise links the record. -/
def tierTryInsert (t : Tier K) (k : K) (v : ValuePtr) : Option (Tier K) :=
  match tierGet t k with
  | some _ => none
  | none => some ((k, v) :: t)

/-- Keys of a tier listing in tier order (the tier's `GetSnapshot` key
output). -/
def tierKeys (t : Tier K) : List K :=
  t.map Prod.fst

/-- Record handles of a tier listing in tier order (the tier's
`GetSnapshot` value output). -/
def tierVals (t : Tier K) : List ValuePtr :=
  t.map Prod.snd

/-- The state of a `DramLevelDBStore`: the Hot (`dram_`) tier, the Cold
(`leveldb_`) tier, the multiset of record handles whose memory has been
freed (`DestroyValuePtr` calls, tracked so destruction is observable), the
pending-free list of `MultiTierStorage` (`value_ptr_out_of_date_`, fed by
`KeepInvalidValuePtr` and drained by `ReleaseInvalidValuePtr`), and an
allocation counter producing fresh record ids. -/
structure Store (K : Type) where
  dram : Tier K
  leveldb : Tier K
  destroyed : List ValuePtr
  pendingFree : List ValuePtr
  nextId : Nat
deriving DecidableEq

/-- `DramLevelDBStore::Get`: try Hot; on a miss try Cold; `some` stands
for a `Status::OK()` return with the record in the out-parameter, `none`
for NotFound.  The source method only performs tier reads, so the store
is untouched and the embedding returns no state. -/
def storeGet (s : Store K) (k : K) : Option ValuePtr :=
  match tierGet s.dram k with
  | some v => some v
  | none => tierGet s.leveldb k

/-- `DramLevelDBStore::Get` in call shape (result paired with the store
after the call): the method mutates neither tier. -/
def storeGetCall (s : Store K) (k : K) : Option ValuePtr × Store K :=
  (storeGet s k, s)

/-- `DramLevelDBStore::Insert(K, ValuePtr<V>**, size_t)`: the sizing form;
allocates a fresh record of the requested length directly in Hot and
returns it. -/
def insertWithLen (s : Store K) (k : K) (allocLen : Nat) :
    ValuePtr × Store K :=
  let v : ValuePtr := ⟨s.nextId, allocLen⟩
  (v, { s with dram := tierInsert s.dram k v, nextId := s.nextId + 1 })

/-- `DramLevelDBStore::Insert(K, ValuePtr<V>*)`: the single-record form;
the source body is a single `LOG(FATAL)`, so the call aborts the process
and never produces a successor store. -/
def insertValuePtr (s : Store K) (k : K) (v : ValuePtr) :
    Outcome (Store K) :=
  Outcome.fatal "Unsupport Insert(K, ValuePtr<V>*) in DramLevelDBStore."

/-- Modelled from the spec: the `CopyBackFlag` out-parameter type of the
four-argument `GetOrCreate` overload (declared outside this source file);
its structure is irrelevant here because that overload aborts before
inspecting it. -/
inductive CopyBackFlag where
  | notCopyback
  | copyback
deriving DecidableEq

/-- `DramLevelDBStore::GetOrCreate(K, ValuePtr<V>**, size_t,
CopyBackFlag&)`: the source body is a single `LOG(FATAL)`, so the call
aborts the process and never returns a record or a successor store. -/
def getOrCreateCopyback (s : Store K) (k : K) (size : Nat)
    (flag : CopyBackFlag) : Outcome ((Status × Option ValuePtr) × Store K) :=
  Outcome.fatal "GetOrCreate(K key, ValuePtr<V>** value_ptr, size_t size, CopyBackFlag &need_copyback) in DramLevelDBStore can not be called."

/-- `DramLevelDBStore::GetOrCreate(K, ValuePtr<V>**, size_t)`: Hot lookup;
on a miss, Cold lookup; on a Cold hit, `TryInsert` the value into Hot
(promotion), on promotion failure destroy the value read from Cold and
re-`Get` from Hot; when absent from both tiers, allocate a fresh record of
the requested size directly in Hot. -/
def getOrCreate (s : Store K) (k : K) (size : Nat) :
    (Status × Option ValuePtr) × Store K :=
  match tierGet s.dram k with
  | some v => ((Status.Ok, some v), s)
  | none =>
    match tierGet s.leveldb k with
    | some v =>
      match tierTryInsert s.dram k v with
      | some d => ((Status.Ok, some v), { s with dram := d })
      | none =>
        let s1 : Store K := { s with destroyed := s.destroyed ++ [v] }
        match tierGet s1.dram k with
        | some w => ((Status.Ok, some w), s1)
        | none => ((Status.NotFound, none), s1)
    | none =>
      let p := insertWithLen s k size
      ((Status.Ok, some p.1), p.2)

/-- `GetOrCreate` with its single concurrency window made explicit:
`other` is a record that a concurrent thread may have promoted into Hot
for the same key between this thread's Cold read and its `TryInsert`
(the race the source's promotion-failure branch exists for);
`other = none` is the sequential execution. -/
def getOrCreateRace (s : Store K) (k : K) (size : Nat)
    (other : Option ValuePtr) : (Status × Option ValuePtr) × Store K :=
  match tierGet s.dram k with
  | some v => ((Status.Ok, some v), s)
  | none =>
    match tierGet s.leveldb k with
    | some v =>
      let s0 : Store K :=
        match other with
        | some w => { s with dram := tierInsert s.dram k w }
        | none => s
      match tierTryInsert s0.dram k v with
      | some d => ((Status.Ok, some v), { s0 with dram := d })
      | none =>
        let s1 : Store K := { s0 with destroyed := s0.destroyed ++ [v] }
        match tierGet s1.dram k with
        | some w => ((Status.Ok, some w), s1)
        | none => ((Status.NotFound, none), s1)
    | none =>
      let p := insertWithLen s k size
      ((Status.Ok, some p.1), p.2)

/-- `DramLevelDBStore::Remove`: removes the key from Hot and from Cold
unconditionally and returns `Status::OK()`. -/
def storeRemove (s : Store K) (k : K) : Status × Store K :=
  (Status.Ok,
   { s with dram := tierRemove s.dram k, leveldb := tierRemove s.leveldb k })

/-- `DramLevelDBStore::LookupTier`: 0 when Hot contains the key, else 1
when Cold contains it, else -1 (absent). -/
def lookupTier (s : Store K) (k : K) : Int :=
  if tierContains s.dram k then 0
  else if tierContains s.leveldb k then 1
  else -1

/-- `DramLevelDBStore::Size()`: the Hot count plus the Cold count. -/
def storeSize (s : Store K) : Int :=
  (s.dram.length : Int) + (s.leveldb.length : Int)

/-- `DramLevelDBStore::Size(int level)`: level 0 is the Hot count, level 1
the Cold count, and any other level yields the sentinel -1. -/
def storeSizeLevel (s : Store K) (level : Int) : Int :=
  if level = 0 then (s.dram.length : Int)
  else if level = 1 then (s.leveldb.length : Int)
  else -1

/-- `DramLevelDBStore::GetSnapshot` (raw form): appends Hot's snapshot to
the output lists under Hot's lock, then Cold's snapshot under Cold's
lock. -/
def getSnapshot (s : Store K) : List K × List ValuePtr :=
  (tierKeys s.dram ++ tierKeys s.leveldb,
   tierVals s.dram ++ tierVals s.leveldb)

/-- `DramLevelDBStore::IsUseHbm`: constant false. -/
def isUseHbm (s : Store K) : Bool :=
  false

/-- `DramLevelDBStore::IsSingleHbm`: constant false. -/
def isSingleHbm (s : Store K) : Bool :=
  false

/-- `DramLevelDBStore::IsUsePersistentStorage`: constant false; the source
comments that the value is false temporarily because the corresponding
interface is not implemented. -/
def isUsePersistentStorage (s : Store K) : Bool :=
  false

/-- Observable steps of an eviction pass: a durable Cold commit of a
record, a failed Cold commit, the unlinking of a key from Hot, the
immediate destruction of a Hot record handle, and the parking of a Hot
record handle on the pending-free list. -/
inductive EvEvent (K : Type) where
  | commit (k : K) (v : ValuePtr)
  | commitFail (k : K)
  | removeHot (k : K)
  | destroy (k : K) (v : ValuePtr)
  | park (k : K) (v : ValuePtr)
deriving DecidableEq

/-- `DramLevelDBStore::Eviction`: for each candidate key present in Hot,
commit the record to Cold, then remove the key from Hot, then destroy the
Hot handle.  `commitOk` models whether the Cold tier's durable `Commit`
succeeds for a key (LevelDB's write path is outside this source file); a
failed commit trips `TF_CHECK_OK`, which aborts the process — rendered as
a `none` final store, with the trace of events performed up to the abort.
Candidates absent from Hot are skipped. -/
def eviction (commitOk : K → Bool) :
    Store K → List K → List (EvEvent K) × Option (Store K)
  | s, [] => ([], some s)
  | s, k :: rest =>
    match tierGet s.dram k with
    | none => eviction commitOk s rest
    | some v =>
      if commitOk k then
        let s1 : Store K := { s with leveldb := tierInsert s.leveldb k v }
        let s2 : Store K := { s1 with dram := tierRemove s1.dram k }
        let s3 : Store K := { s2 with destroyed := s2.destroyed ++ [v] }
        let p := eviction commitOk s3 rest
        (EvEvent.commit k v :: EvEvent.removeHot k :: EvEvent.destroy k v
           :: p.1, p.2)
      else
        ([EvEvent.commitFail k], none)

/-- `MultiTierStorage::ReleaseInvalidValuePtr`: frees every handle parked
on the pending-free list (modelled from the spec's deferred-destruction
scheme; the base class is outside this source file). -/
def releaseInvalidValuePtr (s : Store K) : Store K :=
  { s with destroyed := s.destroyed ++ s.pendingFree, pendingFree := [] }

/-- The migration loop of `DramLevelDBStore::EvictionWithDelayedDestroy`:
identical to `eviction` except that the evicted Hot handle is parked on
the pending-free list (`KeepInvalidValuePtr`) instead of being destroyed
immediately. -/
def evictionDDLoop (commitOk : K → Bool) :
    Store K → List K → List (EvEvent K) × Option (Store K)
  | s, [] => ([], some s)
  | s, k :: rest =>
    match tierGet s.dram k with
    | none => evictionDDLoop commitOk s rest
    | some v =>
      if commitOk k then
        let s1 : Store K := { s with leveldb := tierInsert s.leveldb k v }
        let s2 : Store K := { s1 with dram := tierRemove s1.dram k }
        let s3 : Store K := { s2 with pendingFree := s2.pendingFree ++ [v] }
        let p := evictionDDLoop commitOk s3 rest
        (EvEvent.commit k v :: EvEvent.removeHot k :: EvEvent.park k v
           :: p.1, p.2)
      else
        ([EvEvent.commitFail k], none)

/-- `DramLevelDBStore::EvictionWithDelayedDestroy`: under both tiers'
locks (Hot acquired before Cold, not representable in this sequential
embedding), first drain the pending-free list, then run the migration
loop with parking instead of immediate destruction. -/
def evictionWithDelayedDestroy (commitOk : K → Bool) (s : Store K)
    (evictIds : List K) : List (EvEvent K) × Option (Store K) :=
  evictionDDLoop commitOk (releaseInvalidValuePtr s) evictIds

/-- The commit-before-remove-before-destroy discipline of an eviction
trace: the trace is a sequence of per-key blocks, each committing a record
to Cold, then unlinking the key from Hot, then destroying the Hot handle;
a failed commit may appear only as the very last event, and exactly when
the pass aborted (the Bool is true iff the pass completed). -/
inductive EvictTrace : List (EvEvent K) → Bool → Prop where
  | nil : EvictTrace [] true
  | block (k : K) (v : ValuePtr) {tr : List (EvEvent K)} {b : Bool} :
      EvictTrace tr b →
      EvictTrace (EvEvent.commit k v :: EvEvent.removeHot k
        :: EvEvent.destroy k v :: tr) b
  | abortOnFail (k : K) : EvictTrace [EvEvent.commitFail k] false

/-- `DramLevelDBStore::GetSnapshot` applied to the store produced by
creating key 1, evicting it to Cold, and re-creating it (which promotes
the Cold copy back into Hot while leaving the stale Cold copy behind):
the concrete store on which the snapshot listing repeats a key. -/
def promotedTwiceStore : Store Nat :=
  let s0 : Store Nat := ⟨[], [], [], [], 0⟩
  let s1 := (getOrCreate s0 1 8).2
  let s2 :=
    match (eviction (fun _ => true) s1 [1]).2 with
    | some t => t
    | none => s1
  (getOrCreate s2 1 8).2

/-! ## Helper lemmas -/

theorem tierGet_tierRemove_self (t : Tier K) (k : K) :
    tierGet (tierRemove t k) k = none := by
  induction t with
  | nil => rfl
  | cons p rest ih =>
    obtain ⟨k0, v⟩ := p
    by_cases h : k0 = k
    · simp [tierRemove, h, ih]
    · have h2 : ¬ k = k0 := fun he => h he.symm
      simp [tierRemove, tierGet, h, h2, ih]

/-! ## Claim theorems -/

/-- C5: `Get` probes Hot first and returns the Hot record when present;
only on a Hot miss does it probe Cold; it returns NotFound when the key is
absent from both tiers; and a plain `Get` leaves the store unchanged (no
promotion, no modification of either tier). -/
theorem get_probes_hot_then_cold (s : Store K) (k : K) :
    (∀ v, tierGet s.dram k = some v → storeGet s k = some v) ∧
    (tierGet s.dram k = none → storeGet s k = tierGet s.leveldb k) ∧
    (tierGet s.dram k = none → tierGet s.leveldb k = none →
      storeGet s k = none) ∧
    (storeGetCall s k).2 = s := by
  refine ⟨?_, ?_, ?_, rfl⟩ <;> intro h
  · intro hv
    simp [storeGet, hv]
  · simp [storeGet, h]
  · intro hl
    simp [storeGet, h, hl]

/-- Witness for C5: on a concrete store holding key 1 in Hot and key 2 in
Cold, `Get 2` misses Hot and returns the Cold record. -/
theorem get_probes_hot_then_cold_witness :
    storeGet (⟨[(1, ⟨0, 4⟩)], [(2, ⟨1, 4⟩)], [], [], 2⟩ : Store Nat) 2 =
      some ⟨1, 4⟩ := by
  have h :=
    (get_probes_hot_then_cold
      (⟨[(1, ⟨0, 4⟩)], [(2, ⟨1, 4⟩)], [], [], 2⟩ : Store Nat) 2).2.1
      (by decide)
  rw [h]
  decide

/-- C6: the total `Size()` is the Hot count plus the Cold count, the
per-level `Size(level)` returns the named tier's count for levels 0 (Hot)
and 1 (Cold), and any other level yields the sentinel -1. -/
theorem size_additive_with_sentinel (s : Store K) (level : Int) :
    storeSize s = storeSizeLevel s 0 + storeSizeLevel s 1 ∧
    storeSizeLevel s 0 = (s.dram.length : Int) ∧
    storeSizeLevel s 1 = (s.leveldb.length : Int) ∧
    (level ≠ 0 → level ≠ 1 → storeSizeLevel s level = -1) := by
  refine ⟨by simp [storeSize, storeSizeLevel], by simp [storeSizeLevel],
    by simp [storeSizeLevel], ?_⟩
  intro h0 h1
  simp [storeSizeLevel, h0, h1]

/-- Witness for C6: on a concrete store, `Size(7)` (an invalid tier
identifier) returns the sentinel -1. -/
theorem size_additive_with_sentinel_witness :
    storeSizeLevel (⟨[(1, ⟨0, 4⟩)], [(2, ⟨1, 4⟩)], [], [], 2⟩ : Store Nat)
      7 = -1 :=
  (size_additive_with_sentinel
    (⟨[(1, ⟨0, 4⟩)], [(2, ⟨1, 4⟩)], [], [], 2⟩ : Store Nat) 7).2.2.2
    (by decide) (by decide)

/-- C8: the single-record `Insert(key, record)` form aborts the process
with the source's fatal message; it produces no successor store, so no
tier is modified and nothing is returned to the caller. -/
theorem insert_single_record_fatal (s : Store K) (k : K) (v : ValuePtr) :
    insertValuePtr s k v =
      Outcome.fatal
        "Unsupport Insert(K, ValuePtr<V>*) in DramLevelDBStore." :=
  rfl

/-- C10: the four-argument `GetOrCreate` overload (with the
`CopyBackFlag` out-parameter) aborts the process unconditionally with the
source's fatal message; it performs no lookup, promotion, or allocation
and never returns to the caller. -/
theorem getOrCreate_copyback_fatal (s : Store K) (k : K) (size : Nat)
    (flag : CopyBackFlag) :
    getOrCreateCopyback s k size flag =
      Outcome.fatal
        "GetOrCreate(K key, ValuePtr<V>** value_ptr, size_t size, CopyBackFlag &need_copyback) in DramLevelDBStore can not be called." :=
  rfl

/-- Counterexample to C9 as stated: even on a store with a record resident
in the durable (Cold) tier, `IsUsePersistentStorage` reports false, not
true — the source sets it to false temporarily because the corresponding
interface is not implemented. -/
theorem persistent_storage_query_reports_false :
    isUsePersistentStorage
      (⟨[], [(1, ⟨0, 4⟩)], [], [], 1⟩ : Store Nat) = false := by
  decide

/-- C9 (amended): the capability queries return constant flags, not
derived from state — `IsUseHbm` and `IsSingleHbm` return false, and
`IsUsePersistentStorage` also returns false (temporarily, per the source
comment, because the corresponding interface is not implemented). -/
theorem capability_flags_constant (s : Store K) :
    isUseHbm s = false ∧ isSingleHbm s = false ∧
    isUsePersistentStorage s = false :=
  ⟨rfl, rfl, rfl⟩

/-- C3: `Remove(k)` reports success and removes k from both tiers
unconditionally; afterwards k is absent from Hot and from Cold, `Get(k)`
returns NotFound, and `LookupTier(k)` reports absent (-1), regardless of
which tier held k beforehand. -/
theorem remove_clears_both_tiers (s : Store K) (k : K) :
    (storeRemove s k).1 = Status.Ok ∧
    tierContains (storeRemove s k).2.dram k = false ∧
    tierContains (storeRemove s k).2.leveldb k = false ∧
    storeGet (storeRemove s k).2 k = none ∧
    lookupTier (storeRemove s k).2 k = -1 := by
  have hd : tierGet (tierRemove s.dram k) k = none :=
    tierGet_tierRemove_self s.dram k
  have hl : tierGet (tierRemove s.leveldb k) k = none :=
    tierGet_tierRemove_self s.leveldb k
  refine ⟨rfl, ?_, ?_, ?_, ?_⟩ <;>
    simp [storeRemove, storeGet, lookupTier, tierContains, hd, hl]

/-- Counterexample to C4 as stated: on the store reached by creating key
1, evicting it to Cold, and re-creating it (a promotion that leaves a
stale Cold copy), the raw snapshot lists key 1 twice — the listing has
duplicate keys. -/
theorem snapshot_duplicates_after_promotion :
    (getSnapshot promotedTwiceStore).1 = [1, 1] ∧
    ¬ (getSnapshot promotedTwiceStore).1.Nodup :=
  ⟨by decide, by decide⟩

/-- C4 (amended): the raw snapshot is exactly Hot's listing followed by
Cold's listing, and its key list holds exactly the union of the Hot and
Cold key sets; it has no duplicate keys provided each tier's key list is
duplicate-free and the two tiers' key sets are disjoint (the promotion
branch of `GetOrCreate` can leave a stale Cold copy, making a key resident
in both tiers and the snapshot listing repeat it). -/
theorem snapshot_concat_and_union (s : Store K) :
    (getSnapshot s).1 = tierKeys s.dram ++ tierKeys s.leveldb ∧
    (getSnapshot s).2 = tierVals s.dram ++ tierVals s.leveldb ∧
    (∀ k, k ∈ (getSnapshot s).1 ↔
      k ∈ tierKeys s.dram ∨ k ∈ tierKeys s.leveldb) ∧
    ((tierKeys s.dram).Nodup → (tierKeys s.leveldb).Nodup →
      (∀ k, k ∈ tierKeys s.dram → k ∉ tierKeys s.leveldb) →
      (getSnapshot s).1.Nodup) := by
  refine ⟨rfl, rfl, ?_, ?_⟩
  · intro k
    simp [getSnapshot]
  · intro hd hl hdisj
    simp only [getSnapshot]
    exact List.nodup_append.mpr ⟨hd, hl, hdisj⟩

/-- Witness for C4 (amended): on a concrete store with disjoint tiers, the
snapshot key list is duplicate-free. -/
theorem snapshot_concat_and_union_witness :
    ((getSnapshot
      (⟨[(1, ⟨0, 4⟩)], [(2, ⟨1, 4⟩)], [], [], 2⟩ : Store Nat)).1).Nodup :=
  (snapshot_concat_and_union
    (⟨[(1, ⟨0, 4⟩)], [(2, ⟨1, 4⟩)], [], [], 2⟩ : Store Nat)).2.2.2
    (by decide) (by decide) (by decide)

/-- C1: `GetOrCreate(k, size)` follows the source algorithm.  With no
interference (`other = none`) it coincides with the sequential method; a
Hot hit returns the Hot record unchanged; a Hot miss with a Cold hit
promotes the Cold value into Hot via `TryInsert` and returns the promoted
copy; when a concurrent thread won the promotion (`other = some w`, the
only way `TryInsert` can fail after the Hot miss), the value just read
from Cold is destroyed and the copy now present in Hot is looked up and
returned; and when the key is absent from both tiers a fresh record of
the requested size is allocated directly in Hot and returned with a
success status. -/
theorem getOrCreate_follows_algorithm (s : Store K) (k : K) (size : Nat) :
    getOrCreateRace s k size none = getOrCreate s k size ∧
    (∀ v, tierGet s.dram k = some v →
      getOrCreate s k size = ((Status.Ok, some v), s)) ∧
    (∀ v, tierGet s.dram k = none → tierGet s.leveldb k = some v →
      getOrCreate s k size =
        ((Status.Ok, some v), { s with dram := (k, v) :: s.dram })) ∧
    (∀ v w, tierGet s.dram k = none → tierGet s.leveldb k = some v →
      getOrCreateRace s k size (some w) =
        ((Status.Ok, some w),
         { s with dram := tierInsert s.dram k w,
                  destroyed := s.destroyed ++ [v] })) ∧
    (tierGet s.dram k = none → tierGet s.leveldb k = none →
      getOrCreate s k size =
        ((Status.Ok, some ⟨s.nextId, size⟩),
         { s with dram := tierInsert s.dram k ⟨s.nextId, size⟩,
                  nextId := s.nextId + 1 })) := by
  refine ⟨?_, ?_, ?_, ?_, ?_⟩
  · cases hd : tierGet s.dram k with
    | some v => simp [getOrCreate, getOrCreateRace, hd]
    | none =>
      cases hl : tierGet s.leveldb k with
      | some v =>
        simp [getOrCreate, getOrCreateRace, hd, hl, tierTryInsert]
      | none =>
        simp [getOrCreate, getOrCreateRace, hd, hl]
  · intro v hd
    simp [getOrCreate, hd]
  · intro v hd hl
    simp [getOrCreate, hd, hl, tierTryInsert]
  · intro v w hd hl
    simp [getOrCreateRace, hd, hl, tierTryInsert, tierInsert, tierGet]
  · intro hd hl
    simp [getOrCreate, hd, hl, insertWithLen, tierInsert]

/-- Witness for C1: on a concrete store with key 5 only in Cold, the
promotion-failure branch (a concurrent thread inserted record ⟨9, 8⟩ into
Hot first) destroys the value read from Cold and returns the Hot copy. -/
theorem getOrCreate_follows_algorithm_witness :
    getOrCreateRace (⟨[], [(5, ⟨0, 8⟩)], [], [], 3⟩ : Store Nat) 5 8
        (some ⟨9, 8⟩) =
      ((Status.Ok, some ⟨9, 8⟩),
       { (⟨[], [(5, ⟨0, 8⟩)], [], [], 3⟩ : Store Nat) with
           dram := tierInsert ([] : Tier Nat) 5 ⟨9, 8⟩,
           destroyed := ([] : List ValuePtr) ++ [⟨0, 8⟩] }) :=
  (getOrCreate_follows_algorithm
    (⟨[], [(5, ⟨0, 8⟩)], [], [], 3⟩ : Store Nat) 5 8).2.2.2.1
    ⟨0, 8⟩ ⟨9, 8⟩ (by decide) (by decide)

theorem evictTrace_of_eviction (commitOk : K → Bool) (ids : List K) :
    ∀ s : Store K,
      EvictTrace (eviction commitOk s ids).1
        (eviction commitOk s ids).2.isSome := by
  induction ids with
  | nil =>
    intro s
    simpa [eviction] using EvictTrace.nil
  | cons k rest ih =>
    intro s
    cases hd : tierGet s.dram k with
    | none => simpa [eviction, hd] using ih s
    | some v =>
      by_cases hc : commitOk k
      · simp only [eviction, hd, hc, if_pos]
        exact EvictTrace.block k v (ih _)
      · simp only [eviction, hd, hc, if_neg, Option.isSome_none]
        exact EvictTrace.abortOnFail k

theorem evictTrace_commit_before_remove {tr : List (EvEvent K)} {b : Bool}
    (h : EvictTrace tr b) :
    ∀ pre post (k : K), tr = pre ++ EvEvent.removeHot k :: post →
      ∃ v, EvEvent.commit k v ∈ pre := by
  induction h with
  | nil =>
    intro pre post k hpre
    simp at hpre
  | block k0 v0 h ih =>
    intro pre post k hpre
    match pre with
    | [] => simp at hpre
    | [a] =>
      simp at hpre
      obtain ⟨h1, hk, hpost⟩ := hpre
      subst hk
      exact ⟨v0, by simp [← h1]⟩
    | [a, a2] =>
      simp at hpre
    | a :: a2 :: a3 :: pre3 =>
      simp only [List.cons_append, List.cons.injEq] at hpre
      obtain ⟨v, hv⟩ := ih pre3 post k hpre.2.2.2
      exact ⟨v, by simp [hv]⟩
  | abortOnFail k0 =>
    intro pre post k hpre
    match pre with
    | [] => simp at hpre
    | a :: pre1 =>
      simp only [List.cons_append, List.cons.injEq] at hpre
      exact absurd hpre.2 (by simp)

theorem evictTrace_destroy_last {tr : List (EvEvent K)} {b : Bool}
    (h : EvictTrace tr b) :
    ∀ pre post (k : K) (v : ValuePtr),
      tr = pre ++ EvEvent.destroy k v :: post →
      EvEvent.commit k v ∈ pre ∧ EvEvent.removeHot k ∈ pre := by
  induction h with
  | nil =>
    intro pre post k v hpre
    simp at hpre
  | block k0 v0 h ih =>
    intro pre post k v hpre
    match pre with
    | [] => simp at hpre
    | [a] => simp at hpre
    | [a, a2] =>
      simp at hpre
      obtain ⟨h1, h2, ⟨hk, hv⟩, hpost⟩ := hpre
      subst hk
      subst hv
      exact ⟨by simp [← h1], by simp [← h2]⟩
    | a :: a2 :: a3 :: pre3 =>
      simp only [List.cons_append, List.cons.injEq] at hpre
      obtain ⟨h1, h2⟩ := ih pre3 post k v hpre.2.2.2
      exact ⟨by simp [h1], by simp [h2]⟩
  | abortOnFail k0 =>
    intro pre post k v hpre
    match pre with
    | [] => simp at hpre
    | a :: pre1 =>
      simp only [List.cons_append, List.cons.injEq] at hpre
      exact absurd hpre.2 (by simp)

theorem evictTrace_fail_aborts {tr : List (EvEvent K)} {b : Bool}
    (h : EvictTrace tr b) :
    ∀ pre post (k : K), tr = pre ++ EvEvent.commitFail k :: post →
      post = [] ∧ b = false := by
  induction h with
  | nil =>
    intro pre post k hpre
    simp at hpre
  | block k0 v0 h ih =>
    intro pre post k hpre
    match pre with
    | [] => simp at hpre
    | [a] => simp at hpre
    | [a, a2] => simp at hpre
    | a :: a2 :: a3 :: pre3 =>
      simp only [List.cons_append, List.cons.injEq] at hpre
      exact ih pre3 post k hpre.2.2.2
  | abortOnFail k0 =>
    intro pre post k hpre
    match pre with
    | [] =>
      simp at hpre
      exact ⟨hpre.2, rfl⟩
    | a :: pre1 =>
      simp only [List.cons_append, List.cons.injEq] at hpre
      exact absurd hpre.2 (by simp)

/-- C2: every `Eviction` pass obeys the commit-before-remove-before-
destroy discipline.  Its event trace is a sequence of per-key blocks of
the form commit-to-Cold, remove-from-Hot, destroy-Hot-copy; a key is
never unlinked from Hot before a commit of its record to Cold appears
earlier in the trace; a Hot copy is never destroyed before both the
commit and the removal; and a failed commit aborts the pass — it is the
last event of the trace and the pass produces no final store. -/
theorem eviction_commit_before_remove (commitOk : K → Bool) (s : Store K)
    (ids : List K) :
    EvictTrace (eviction commitOk s ids).1
      (eviction commitOk s ids).2.isSome ∧
    (∀ pre post (k : K),
      (eviction commitOk s ids).1 = pre ++ EvEvent.removeHot k :: post →
      ∃ v, EvEvent.commit k v ∈ pre) ∧
    (∀ pre post (k : K) (v : ValuePtr),
      (eviction commitOk s ids).1 = pre ++ EvEvent.destroy k v :: post →
      EvEvent.commit k v ∈ pre ∧ EvEvent.removeHot k ∈ pre) ∧
    (∀ pre post (k : K),
      (eviction commitOk s ids).1 = pre ++ EvEvent.commitFail k :: post →
      post = [] ∧ (eviction commitOk s ids).2 = none) := by
  have h := evictTrace_of_eviction commitOk ids s
  refine ⟨h, ?_, ?_, ?_⟩
  · intro pre post k hpre
    exact evictTrace_commit_before_remove h pre post k hpre
  · intro pre post k v hpre
    exact evictTrace_destroy_last h pre post k v hpre
  · intro pre post k hpre
    have h2 := evictTrace_fail_aborts h pre post k hpre
    refine ⟨h2.1, ?_⟩
    cases hr : (eviction commitOk s ids).2 with
    | none => rfl
    | some t =>
      rw [hr] at h2
      simp at h2

/-- Witness for C2: on a concrete store holding keys 1 and 2 in Hot, with
a commit oracle that fails on key 2, the pass aborts — the failed commit
is the last trace event and no final store is produced. -/
theorem eviction_commit_before_remove_witness :
    ([] : List (EvEvent Nat)) = [] ∧
    (eviction (fun k => k == 1)
      (⟨[(1, ⟨0, 4⟩), (2, ⟨1, 4⟩)], [], [], [], 2⟩ : Store Nat)
      [1, 2]).2 = none :=
  (eviction_commit_before_remove (fun k => k == 1)
    (⟨[(1, ⟨0, 4⟩), (2, ⟨1, 4⟩)], [], [], [], 2⟩ : Store Nat)
    [1, 2]).2.2.2
    [EvEvent.commit 1 ⟨0, 4⟩, EvEvent.removeHot 1, EvEvent.destroy 1 ⟨0, 4⟩]
    [] 2 (by decide)

theorem eviction_dd_sim (commitOk : K → Bool) (ids : List K) :
    ∀ sE sDD : Store K, sE.dram = sDD.dram → sE.leveldb = sDD.leveldb →
    ∃ l : List ValuePtr,
      ((eviction commitOk sE ids).2 = none ↔
        (evictionDDLoop commitOk sDD ids).2 = none) ∧
      ∀ tE tD, (eviction commitOk sE ids).2 = some tE →
        (evictionDDLoop commitOk sDD ids).2 = some tD →
        tE.dram = tD.dram ∧ tE.leveldb = tD.leveldb ∧
        tE.destroyed = sE.destroyed ++ l ∧
        tD.pendingFree = sDD.pendingFree ++ l ∧
        tD.destroyed = sDD.destroyed ∧
        tE.pendingFree = sE.pendingFree ∧
        tE.nextId = sE.nextId ∧ tD.nextId = sDD.nextId := by
  induction ids with
  | nil =>
    intro sE sDD hdram hldb
    refine ⟨[], by simp [eviction, evictionDDLoop], ?_⟩
    intro tE tD hE hD
    simp [eviction] at hE
    simp [evictionDDLoop] at hD
    subst hE
    subst hD
    simp [hdram, hldb]
  | cons k rest ih =>
    intro sE sDD hdram hldb
    cases hd : tierGet sDD.dram k with
    | none =>
      have hdE : tierGet sE.dram k = none := by rw [hdram]; exact hd
      obtain ⟨l, hiff, hsome⟩ := ih sE sDD hdram hldb
      exact ⟨l, by simpa [eviction, evictionDDLoop, hd, hdE] using
        ⟨hiff, hsome⟩⟩
    | some v =>
      have hdE : tierGet sE.dram k = some v := by rw [hdram]; exact hd
      by_cases hc : commitOk k
      · obtain ⟨l, hiff, hsome⟩ :=
          ih { sE with leveldb := tierInsert sE.leveldb k v,
                       dram := tierRemove sE.dram k,
                       destroyed := sE.destroyed ++ [v] }
             { sDD with leveldb := tierInsert sDD.leveldb k v,
                        dram := tierRemove sDD.dram k,
                        pendingFree := sDD.pendingFree ++ [v] }
             (by simp [hdram]) (by simp [hldb])
        refine ⟨v :: l, ?_, ?_⟩
        · simpa [eviction, evictionDDLoop, hd, hdE, hc] using hiff
        · intro tE tD hE hD
          simp only [eviction, evictionDDLoop, hd, hdE, hc, if_pos] at hE hD
          obtain ⟨h1, h2, h3, h4, h5, h6, h7, h8⟩ := hsome tE tD hE hD
          refine ⟨h1, h2, ?_, ?_, h5, h6, h7, h8⟩
          · simpa [List.append_assoc] using h3
          · simpa [List.append_assoc] using h4
      · refine ⟨[], ?_, ?_⟩
        · simp [eviction, evictionDDLoop, hd, hdE, hc]
        · intro tE tD hE hD
          simp [eviction, hdE, hc] at hE

/-- C7: for every commit oracle, starting store and candidate list,
`EvictionWithDelayedDestroy` performs the same key-state migration as
`Eviction`: both abort in exactly the same cases, and when both complete
the resulting Hot and Cold tier contents are identical; the only
difference is the fate of the evicted Hot copies — `Eviction` destroys
them immediately, while `EvictionWithDelayedDestroy` parks exactly those
copies on the pending-free list (having first drained the previously
parked handles). -/
theorem evictionDD_same_migration (commitOk : K → Bool) (s : Store K)
    (ids : List K) :
    ((eviction commitOk s ids).2 = none ↔
      (evictionWithDelayedDestroy commitOk s ids).2 = none) ∧
    ∀ tE tD, (eviction commitOk s ids).2 = some tE →
      (evictionWithDelayedDestroy commitOk s ids).2 = some tD →
      tE.dram = tD.dram ∧ tE.leveldb = tD.leveldb ∧
      tE.destroyed = s.destroyed ++ tD.pendingFree ∧
      tD.destroyed = s.destroyed ++ s.pendingFree := by
  obtain ⟨l, hiff, hsome⟩ :=
    eviction_dd_sim commitOk ids s (releaseInvalidValuePtr s) rfl rfl
  refine ⟨hiff, ?_⟩
  intro tE tD hE hD
  obtain ⟨h1, h2, h3, h4, h5, h6, h7, h8⟩ := hsome tE tD hE hD
  refine ⟨h1, h2, ?_, ?_⟩
  · rw [h3, h4]
    simp [releaseInvalidValuePtr]
  · rw [h5]
    simp [releaseInvalidValuePtr]

/-- Witness for C7: on a concrete store with key 1 in Hot and a handle
already parked on the pending-free list, evicting key 1 yields identical
Hot and Cold contents under both variants; `Eviction` destroys the
evicted copy that `EvictionWithDelayedDestroy` parks, and the delayed
variant has drained the previously parked handle. -/
theorem evictionDD_same_migration_witness :
    (⟨[], [(1, ⟨0, 4⟩)], [⟨0, 4⟩], [⟨7, 2⟩], 5⟩ : Store Nat).dram =
      (⟨[], [(1, ⟨0, 4⟩)], [⟨7, 2⟩], [⟨0, 4⟩], 5⟩ : Store Nat).dram ∧
    (⟨[], [(1, ⟨0, 4⟩)], [⟨0, 4⟩], [⟨7, 2⟩], 5⟩ : Store Nat).leveldb =
      (⟨[], [(1, ⟨0, 4⟩)], [⟨7, 2⟩], [⟨0, 4⟩], 5⟩ : Store Nat).leveldb ∧
    (⟨[], [(1, ⟨0, 4⟩)], [⟨0, 4⟩], [⟨7, 2⟩], 5⟩ : Store Nat).destroyed =
      (⟨[(1, ⟨0, 4⟩)], [], [], [⟨7, 2⟩], 5⟩ : Store Nat).destroyed ++
        (⟨[], [(1, ⟨0, 4⟩)], [⟨7, 2⟩], [⟨0, 4⟩], 5⟩ :
          Store Nat).pendingFree ∧
    (⟨[], [(1, ⟨0, 4⟩)], [⟨7, 2⟩], [⟨0, 4⟩], 5⟩ : Store Nat).destroyed =
      (⟨[(1, ⟨0, 4⟩)], [], [], [⟨7, 2⟩], 5⟩ : Store Nat).destroyed ++
        (⟨[(1, ⟨0, 4⟩)], [], [], [⟨7, 2⟩], 5⟩ : Store Nat).pendingFree :=
  (evictionDD_same_migration (fun _ => true)
    (⟨[(1, ⟨0, 4⟩)], [], [], [⟨7, 2⟩], 5⟩ : Store Nat) [1]).2
    (⟨[], [(1, ⟨0, 4⟩)], [⟨0, 4⟩], [⟨7, 2⟩], 5⟩ : Store Nat)
    (⟨[], [(1, ⟨0, 4⟩)], [⟨7, 2⟩], [⟨0, 4⟩], 5⟩ : Store Nat)
    (by decide) (by decide)

end DramLevelDB
